import Mathlib

/-!
Verification of the BRICS protocol off-chain oracle core against its
natural-language specification.

The Python sources are shallowly embedded:
* `services/pricing/baseline_model.py` — jitter, scoring, pricing.
  Python floats are modelled by exact rationals (`ℚ`); the one genuinely
  real-valued operation (`math.sqrt`) is modelled by `Real.sqrt`, so the
  fair-spread computation lives in `ℝ`.  Python `int(x)` truncates toward
  zero, which `pytrunc`/`pytruncR` reproduce.  Environment configuration
  (`MODEL_JITTER_BPS_OVERRIDE`, `SEED`) is passed as explicit parameters.
  Keccak-256 is an external library primitive (`eth_utils.keccak`) and is
  passed as an abstract function parameter `keccak`.
* `risk_api/providers/safety.py` — lane pre-trade and NAV sanity checks,
  in exact integer arithmetic (Python `//` is floor division, `Int.fdiv`).
* `risk_api/signing.py` and `services/pricing/signing.py` — canonical
  JSON forms; Ed25519 and secp256k1 primitives are external libraries
  (`nacl`, `eth_keys`) and are modelled abstractly: Ed25519 verification
  as an abstract boolean predicate, secp256k1 as ECDSA over an abstract
  prime-order group (the curve group of secp256k1 is cyclic of prime
  order n, hence a `ZMod n`-module).
-/

namespace Brics

/-! ### Bytes and UTF-8 (Python `to_bytes(text=...)` / `.encode('utf-8')`) -/

/-- UTF-8 encoding of a single character, bytes as naturals. -/
def utf8EncodeCharB (c : Char) : List Nat :=
  let v := c.val.toNat
  if v < 0x80 then [v]
  else if v < 0x800 then
    [0xC0 + v / 0x40, 0x80 + v % 0x40]
  else if v < 0x10000 then
    [0xE0 + v / 0x1000, 0x80 + v / 0x40 % 0x40, 0x80 + v % 0x40]
  else
    [0xF0 + v / 0x40000, 0x80 + v / 0x1000 % 0x40, 0x80 + v / 0x40 % 0x40, 0x80 + v % 0x40]

/-- UTF-8 bytes of a string. -/
def utf8Bytes (s : String) : List Nat :=
  (s.data.map utf8EncodeCharB).flatten

/-- Python `int.from_bytes(l, 'big')`. -/
def bytesToNatBE (l : List Nat) : Nat :=
  l.foldl (fun acc b => acc * 256 + b) 0

/-- Python `l[-2:]`. -/
def lastTwo (l : List Nat) : List Nat := l.drop (l.length - 2)

/-! ### `services/pricing/baseline_model.py` -/

/-- Python `int(x)` on a rational: truncation toward zero. -/
def pytrunc (q : ℚ) : ℤ := if 0 ≤ q then ⌊q⌋ else ⌈q⌉

/-- `round_half_up(value) = int(value + 0.5)`. -/
def round_half_up (q : ℚ) : ℤ := pytrunc (q + 1/2)

/-- Python `int(x)` on a real: truncation toward zero. -/
noncomputable def pytruncR (x : ℝ) : ℤ := if 0 ≤ x then ⌊x⌋ else ⌈x⌉

/-- `round_half_up` applied to a real-valued expression. -/
noncomputable def round_half_upR (x : ℝ) : ℤ := pytruncR (x + 1/2)

/-- `clamp(value, min_val, max_val) = max(min_val, min(max_val, value))`, integer version. -/
def clampZ (v lo hi : ℤ) : ℤ := max lo (min hi v)

/-- `clamp(value, min_val, max_val)` on rationals. -/
def clampQ (v lo hi : ℚ) : ℚ := max lo (min hi v)

/-- `features.get(k, 0.0)`: a feature mapping is a partial map from keys to numbers. -/
def fget (features : String → Option ℚ) (k : String) : ℚ := (features k).getD 0

/--
`jitter_bps(seed, obligor_id, tenor_days, as_of)`.
`override` models the environment variable `MODEL_JITTER_BPS_OVERRIDE`
(parsed to an integer when set); `keccak` models `eth_utils.keccak`.
-/
def jitter_bps (keccak : List Nat → List Nat) (override : Option Int) (seed : String)
    (obligor_id : String) (tenor_days : Int) (as_of : Int) : Int :=
  match override with
  | some v => v
  | none =>
    if seed = "" then 0
    else
      let input_str := obligor_id ++ ":" ++ toString tenor_days ++ ":" ++ toString as_of
        ++ ":" ++ seed
      let hash_bytes := keccak (utf8Bytes input_str)
      let value := bytesToNatBE (lastTwo hash_bytes) % 11
      (value : Int) - 5

/-- Result dictionary of `score_risk`. -/
structure ScoreResult where
  pdBps : ℤ
  lgdBps : ℤ
  scoreConfidence : ℚ
deriving DecidableEq, Repr

/-- `score_risk(features, obligor_id, tenor_days, as_of)`. -/
def score_risk (features : String → Option ℚ) (obligor_id : String)
    (tenor_days : Int) (as_of : Int) : ScoreResult :=
  let size := fget features "size"
  let leverage := fget features "leverage"
  let volatility := fget features "volatility"
  let fx_exposure := fget features "fxExposure"
  let country_risk := fget features "countryRisk"
  let industry_stress := fget features "industryStress"
  let collateral_quality := fget features "collateralQuality"
  let data_quality := fget features "dataQuality"
  let model_shift := fget features "modelShift"
  let pd_bps_raw := 50 * size + 80 * leverage + 40 * volatility + 30 * fx_exposure
    + 20 * country_risk
  let pd_bps := clampZ (round_half_up pd_bps_raw) 5 3000
  let lgd_bps_raw := 4500 + 10 * industry_stress - 5 * collateral_quality
  let lgd_bps := clampZ (round_half_up lgd_bps_raw) 2000 9000
  let score_confidence := clampQ (1/2 + 5/100 * data_quality - 3/100 * model_shift)
    (30/100) (95/100)
  ⟨pd_bps, lgd_bps, score_confidence⟩

/-- Result dictionary of `price_cds`. -/
structure PriceResult where
  fairSpreadBps : ℤ
  correlationBps : ℤ
  elBps : ℚ
  liqBps : ℚ
  rpBps : ℝ

/--
`price_cds(obligor_id, tenor_days, features, pd_bps, lgd_bps, as_of)`.
`seed` models `get_seed()` (env `SEED`), `override` the jitter override.
-/
noncomputable def price_cds (keccak : List Nat → List Nat) (override : Option Int)
    (seed : String) (obligor_id : String) (tenor_days : Int)
    (features : String → Option ℚ) (pd_bps lgd_bps : ℤ) (as_of : Int) : PriceResult :=
  let el_bps : ℚ := ((pd_bps * lgd_bps : ℤ) : ℚ) / 10000
  let liq_bps_raw : ℚ := 5 + 2/100 * (tenor_days : ℚ)
  let jitter := jitter_bps keccak override seed obligor_id tenor_days as_of
  let liq_bps : ℚ := liq_bps_raw + (jitter : ℚ)
  let rp_bps : ℝ := 3/5 * Real.sqrt ((max pd_bps 1 : ℤ) : ℝ)
  let fair_spread_bps_raw : ℝ := (el_bps : ℝ) + (liq_bps : ℝ) + rp_bps
  let fair_spread_bps := clampZ (round_half_upR fair_spread_bps_raw) 25 3000
  let volatility := fget features "volatility"
  let country_risk := fget features "countryRisk"
  let corr_raw : ℚ := (15 + 5/2 * volatility + 3/2 * country_risk) * 100
  let correlation_bps := clampZ (round_half_up corr_raw) 1000 9000
  ⟨fair_spread_bps, correlation_bps, el_bps, liq_bps, rp_bps⟩

/-- `get_risk_score_bps(pd_bps, lgd_bps) = round_half_up(pd_bps * lgd_bps / 10000.0)`. -/
def get_risk_score_bps (pd_bps lgd_bps : ℤ) : ℤ :=
  round_half_up (((pd_bps * lgd_bps : ℤ) : ℚ) / 10000)

/-- The golden-vector feature mapping from the spec. -/
def goldenFeatures : String → Option ℚ := fun k =>
  if k = "size" then some (12/10)
  else if k = "leverage" then some (1/2)
  else if k = "volatility" then some (3/10)
  else if k = "fxExposure" then some (1/10)
  else if k = "countryRisk" then some (1/5)
  else if k = "industryStress" then some (2/5)
  else if k = "collateralQuality" then some (7/10)
  else if k = "dataQuality" then some (4/5)
  else if k = "modelShift" then some (1/10)
  else none

/-- The all-absent (hence all-zero) feature mapping. -/
def zeroFeatures : String → Option ℚ := fun _ => none

/-- An extreme-high feature mapping: every feature present with value 1000. -/
def extremeFeatures : String → Option ℚ := fun _ => some 1000

/-- A concrete stand-in hash function, used only to instantiate theorems. -/
def trivialKeccak : List Nat → List Nat := fun _ => List.replicate 32 0

/-! ### `risk_api/providers/safety.py` -/

/-- The `_bounds` table of `SafetyProvider.__init__` (matching InstantLane.sol). -/
def laneBoundsTable : List (Int × (Int × Int)) :=
  [(0, (9800, 10200)), (1, (9900, 10100)), (2, (9975, 10025))]

/-- Result dictionary of `get_lane_pretrade_data`; `ok` is the Python int 0/1. -/
structure LaneResult where
  ok : Int
  min_bps : Int
  max_bps : Int
  price_bps : Int
  emergency_level : Int
deriving DecidableEq, Repr

/-- `SafetyProvider.get_lane_pretrade_data(price_bps, emergency_level)`. -/
def get_lane_pretrade_data (price_bps : Int) (emergency_level : Int) : LaneResult :=
  let mm := match laneBoundsTable.lookup emergency_level with
    | some b => b
    | none => (9975, 10025)
  let ok : Int := if mm.1 ≤ price_bps ∧ price_bps ≤ mm.2 then 1 else 0
  ⟨ok, mm.1, mm.2, price_bps, emergency_level⟩

/-- Result dictionary of `get_nav_sanity_data`. -/
structure NavResult where
  ok : Int
  prev_nav_ray : Int
  proposed_nav_ray : Int
  max_jump_bps : Int
  emergency_enabled : Int
  assumed_prev : Int
deriving DecidableEq, Repr

/--
`SafetyProvider.get_nav_sanity_data(proposed_nav_ray, max_jump_bps, emergency_enabled,
prev_nav_ray)`.  Python `//` is floor division (`Int.fdiv`); `not emergency_enabled`
is Python truthiness on an int, i.e. `emergency_enabled = 0`.
-/
def get_nav_sanity_data (proposed_nav_ray : Int) (max_jump_bps : Option Int)
    (emergency_enabled : Int) (prev_nav_ray : Option Int) : NavResult :=
  let mj := max_jump_bps.getD 500
  let pa : Int × Int := match prev_nav_ray with
    | none => (1000000000000000000000000000, 1)
    | some p => (p, 0)
  let prev := pa.1
  let ok : Int :=
    if prev ≠ 0 ∧ emergency_enabled = 0 then
      let hi := Int.fdiv (prev * (10000 + mj)) 10000
      let lo := Int.fdiv (prev * (10000 - mj)) 10000
      if lo ≤ proposed_nav_ray ∧ proposed_nav_ray ≤ hi then 1 else 0
    else 1
  ⟨ok, prev, proposed_nav_ray, mj, emergency_enabled, pa.2⟩

/-! ### JSON values and the canonical serializations

Python dicts are insertion-ordered, so a feature/snapshot mapping is
modelled as an association list `List (String × JVal)`; a genuine mapping
has `Nodup` keys.  `json.dumps(..., separators=(',', ':'), sort_keys=True)`
is modelled by sorting the entries by key and serializing compactly.
-/

/-- A flat JSON value as passed to the canonicalizers.  Python floats are
modelled by exact rationals (carrying the truncation semantics of
`int(float)`). -/
inductive JVal where
  | jint : ℤ → JVal
  | jfloat : ℚ → JVal
  | jstr : String → JVal
  | jbool : Bool → JVal
  | jnull : JVal
deriving DecidableEq, Repr

/-- Hex digits for `\uXXXX` escapes, lowercase as CPython emits them. -/
def hexDigitChar (n : Nat) : Char :=
  if n < 10 then Char.ofNat (48 + n) else Char.ofNat (87 + n)

/-- Four-hex-digit representation of `n < 0x10000`. -/
def hex4 (n : Nat) : String :=
  String.mk [hexDigitChar (n / 0x1000 % 16), hexDigitChar (n / 0x100 % 16),
    hexDigitChar (n / 0x10 % 16), hexDigitChar (n % 16)]

/-- `json.dumps` escaping of one character (default `ensure_ascii=True`):
printable ASCII passes through, `"` `\` and controls are escaped, and
everything non-ASCII becomes `\uXXXX` (surrogate pairs above U+FFFF). -/
def escapeJsonChar (c : Char) : String :=
  let v := c.val.toNat
  if c = '"' then "\\\""
  else if c = '\\' then "\\\\"
  else if c = '\n' then "\\n"
  else if c = '\t' then "\\t"
  else if c = '\r' then "\\r"
  else if v = 8 then "\\b"
  else if v = 12 then "\\f"
  else if 0x20 ≤ v ∧ v < 0x7F then String.mk [c]
  else if v < 0x10000 then "\\u" ++ hex4 v
  else
    let w := v - 0x10000
    "\\u" ++ hex4 (0xD800 + w / 0x400) ++ "\\u" ++ hex4 (0xDC00 + w % 0x400)

/-- `json.dumps` of a string literal. -/
def serializeJsonString (s : String) : String :=
  "\"" ++ String.join (s.data.map escapeJsonChar) ++ "\""

/-- `json.dumps` of one flat value.  Integers print in decimal with a
leading `-` when negative, exactly as Python's `int` repr; the textual
repr of a float (Python's shortest-round-trip decimal) is abstracted as
the rational's repr — no claim depends on it. -/
def serializeJVal : JVal → String
  | .jint i => toString i
  | .jfloat q => toString q
  | .jstr s => serializeJsonString s
  | .jbool b => if b then "true" else "false"
  | .jnull => "null"

/-- Compact serialization of an object in the given entry order:
`json.dumps(obj, separators=(',', ':'))`. -/
def serializeJsonObj (l : List (String × JVal)) : String :=
  "\x7b" ++ String.intercalate ","
    (l.map fun kv => serializeJsonString kv.1 ++ ":" ++ serializeJVal kv.2) ++ "\x7d"

/-- Key order used by `sort_keys=True` / `sorted(obj.keys())`: code-point
lexicographic comparison of the key strings. -/
def keyLe (a b : String × JVal) : Prop := a.1 ≤ b.1

instance : DecidableRel keyLe := fun a b => inferInstanceAs (Decidable (a.1 ≤ b.1))

instance : IsTotal (String × JVal) keyLe := ⟨fun a b => le_total a.1 b.1⟩

instance : IsTrans (String × JVal) keyLe := ⟨fun _ _ _ h h' => le_trans h h'⟩

/-- Sorting the entries of a mapping by key. -/
def sortByKey (l : List (String × JVal)) : List (String × JVal) :=
  l.insertionSort keyLe

/-! ### `services/pricing/signing.py` (secp256k1 path canonicalizer) -/

/--
`canonical_features_hash(features) = keccak(to_bytes(text=json.dumps(features,
sort_keys=True, separators=(',', ':'))))`.  `keccak` is the external
Keccak-256 primitive, passed abstractly.
-/
def canonical_features_hash (keccak : List Nat → List Nat)
    (features : List (String × JVal)) : List Nat :=
  keccak (utf8Bytes (serializeJsonObj (sortByKey features)))

/-! ### `risk_api/signing.py` (Ed25519 path) -/

/-- The per-value coercion inside `canonical_json`: floats become their
truncated integer part (`int(value)` truncates toward zero), everything
else passes through. -/
def canonicalCoerce : JVal → JVal
  | .jfloat q => .jint (pytrunc q)
  | v => v

/--
`canonical_json(obj)`: sort keys, coerce floats to truncated integers,
serialize compactly (`separators=(',', ':'), sort_keys=True`), UTF-8 encode.
-/
def canonical_json (obj : List (String × JVal)) : List Nat :=
  utf8Bytes (serializeJsonObj (sortByKey (obj.map fun kv => (kv.1, canonicalCoerce kv.2))))

/-- Value of one hex digit, or `none` (Python `bytes.fromhex` rejects). -/
def hexDigitVal (c : Char) : Option Nat :=
  if '0' ≤ c ∧ c ≤ '9' then some (c.val.toNat - 48)
  else if 'a' ≤ c ∧ c ≤ 'f' then some (c.val.toNat - 87)
  else if 'A' ≤ c ∧ c ≤ 'F' then some (c.val.toNat - 55)
  else none

/-- `bytes.fromhex`: pairs of hex digits, ASCII spaces allowed between
bytes; any other shape raises `ValueError`, modelled as `none`. -/
def bytesFromHex (l : List Char) : Option (List Nat) :=
  match l with
  | [] => some []
  | ' ' :: rest => bytesFromHex rest
  | c1 :: c2 :: rest =>
    match hexDigitVal c1, hexDigitVal c2 with
    | some h, some lo =>
      match bytesFromHex rest with
      | some bs => some ((h * 16 + lo) :: bs)
      | none => none
    | _, _ => none
  | _ => none

/-- `bytes.fromhex(s)` on a string. -/
def bytes_fromhex (s : String) : Option (List Nat) := bytesFromHex s.data

/--
`SigningKey.verify(data, signature_hex)`: decode the hex signature, recompute
the canonical JSON bytes and verify with the held Ed25519 verify key; any
exception (malformed hex, bad signature) yields `False`.  `edVerify` models
`nacl.signing.VerifyKey.verify` for this key as a total boolean predicate
(message bytes → signature bytes → success), exceptions folded into `false`.
-/
def SigningKey.verify (edVerify : List Nat → List Nat → Bool)
    (data : List (String × JVal)) (signature_hex : String) : Bool :=
  match bytes_fromhex signature_hex with
  | none => false
  | some signature_bytes => edVerify (canonical_json data) signature_bytes

/-! ### secp256k1 ECDSA (`services/pricing/signing.py`, via `eth_keys`)

The curve group of secp256k1 is cyclic of prime order n, hence a module
over `ZMod n`.  The model is parametric in that group `G`, the generator
`g`, the x-coordinate-mod-n map `xof`, the y-parity map `par` (which the
recovery id of the 65-byte signature records), and the point
reconstruction `recoverPoint` used by public-key recovery.  Keccak-based
checksum address derivation is an abstract map `toAddr`.
-/

/-- A 65-byte recoverable signature (r, s, recovery id). -/
structure RecoverableSig (n : ℕ) where
  r : ZMod n
  s : ZMod n
  v : Bool

/-- The public key of a private key `d`: the point `d • g`. -/
def ecPubkey {n : ℕ} {G : Type} [AddCommGroup G] [Module (ZMod n) G]
    (g : G) (d : ZMod n) : G := d • g

/-- `addressOf(privateKey)`: checksummed address of the public key. -/
def addressOf {n : ℕ} {G : Type} [AddCommGroup G] [Module (ZMod n) G]
    (toAddr : G → String) (g : G) (d : ZMod n) : String := toAddr (ecPubkey g d)

/--
`sign_digest(digest, private_key)` = `keys.PrivateKey(...).sign_msg_hash(digest)`:
plain ECDSA with nonce `k` applied directly to the digest `z` — no EIP-191 or
other message-prefixing transform is applied to `z`.
-/
def sign_digest {n : ℕ} [Fact (Nat.Prime n)] {G : Type} [AddCommGroup G]
    [Module (ZMod n) G] (g : G) (xof : G → ZMod n) (par : G → Bool)
    (z d k : ZMod n) : RecoverableSig n :=
  let bigR := k • g
  let r := xof bigR
  ⟨r, k⁻¹ * (z + r * d), par bigR⟩

/--
`recover(digest, signature)` = `sig.recover_public_key_from_msg_hash(digest)`:
rebuild the nonce point from (r, v), then compute `r⁻¹ • (s • R - z • g)`.
-/
def recoverPub {n : ℕ} [Fact (Nat.Prime n)] {G : Type} [AddCommGroup G]
    [Module (ZMod n) G] (g : G) (recoverPoint : ZMod n → Bool → G)
    (z : ZMod n) (sig : RecoverableSig n) : G :=
  let bigR := recoverPoint sig.r sig.v
  (sig.r⁻¹ * sig.s) • bigR - (sig.r⁻¹ * z) • g

/-- `recover` as the source returns it: the checksummed address of the
recovered public key. -/
def recoverAddress {n : ℕ} [Fact (Nat.Prime n)] {G : Type} [AddCommGroup G]
    [Module (ZMod n) G] (toAddr : G → String) (g : G)
    (recoverPoint : ZMod n → Bool → G) (z : ZMod n) (sig : RecoverableSig n) : String :=
  toAddr (recoverPub g recoverPoint z sig)

/-! ## Theorems -/

/--
C4: for every hash function, seed, obligor, tenor and as-of: with no override
configured the jitter lies in [-5, 5]; a configured override is returned
unconditionally (bypassing all hashing); with no override an empty seed yields
0; otherwise the result is the last 2 bytes of Keccak-256 of the UTF-8 string
`obligorId:tenorDays:asOf:seed`, read big-endian, reduced mod 11, minus 5.
-/
theorem jitter_bps_spec (keccak : List Nat → List Nat) (override : Option Int)
    (seed obligor_id : String) (tenor_days as_of : Int) :
    (override = none →
      -5 ≤ jitter_bps keccak override seed obligor_id tenor_days as_of ∧
      jitter_bps keccak override seed obligor_id tenor_days as_of ≤ 5) ∧
    (∀ v, override = some v →
      jitter_bps keccak override seed obligor_id tenor_days as_of = v) ∧
    (override = none → seed = "" →
      jitter_bps keccak override seed obligor_id tenor_days as_of = 0) ∧
    (override = none → seed ≠ "" →
      jitter_bps keccak override seed obligor_id tenor_days as_of =
        Nat.cast (bytesToNatBE (lastTwo (keccak (utf8Bytes (obligor_id ++ ":"
          ++ toString tenor_days ++ ":" ++ toString as_of ++ ":" ++ seed)))) % 11)
          - 5) := by
  refine ⟨?_, ?_, ?_, ?_⟩
  · rintro rfl
    unfold jitter_bps
    by_cases hs : seed = ""
    · simp [hs]
    · simp only [hs, if_false]
      have hlt : bytesToNatBE (lastTwo (keccak (utf8Bytes (obligor_id ++ ":"
          ++ toString tenor_days ++ ":" ++ toString as_of ++ ":" ++ seed)))) % 11 < 11 :=
        Nat.mod_lt _ (by norm_num)
      omega
  · rintro v rfl
    rfl
  · rintro rfl hs
    simp [jitter_bps, hs]
  · rintro rfl hs
    simp [jitter_bps, hs]

/-- Witness for C4 at a concrete configuration. -/
theorem jitter_bps_spec_witness :
    -5 ≤ jitter_bps trivialKeccak none "42" "ACME-LLC" 365 1726000000 ∧
    jitter_bps trivialKeccak none "42" "ACME-LLC" 365 1726000000 ≤ 5 :=
  (jitter_bps_spec trivialKeccak none "42" "ACME-LLC" 365 1726000000).1 rfl

/--
C7: `SigningKey.verify` never propagates an exception: it is a total boolean
function; malformed hex (where `bytes.fromhex` raises) yields `false`, and it
returns `true` exactly when the Ed25519 signature verifies against the
canonical JSON bytes of the data.
-/
theorem signing_key_verify_spec (edVerify : List Nat → List Nat → Bool)
    (data : List (String × JVal)) (signature_hex : String) :
    (SigningKey.verify edVerify data signature_hex = true ↔
      ∃ sb, bytes_fromhex signature_hex = some sb ∧
        edVerify (canonical_json data) sb = true) ∧
    (bytes_fromhex signature_hex = none →
      SigningKey.verify edVerify data signature_hex = false) := by
  unfold SigningKey.verify
  cases h : bytes_fromhex signature_hex with
  | none => simp [h]
  | some sb => simp [h]

/-- Witness for C7: a malformed (odd-length, non-hex) signature string is
reported as `false`, not an error. -/
theorem signing_key_verify_spec_witness :
    SigningKey.verify (fun _ _ => true) [] "zzz" = false :=
  (signing_key_verify_spec (fun _ _ => true) [] "zzz").2 rfl

/--
C8: `get_lane_pretrade_data` uses the fixed bounds table (level 0 → (9800,
10200), level 1 → (9900, 10100), level 2 → (9975, 10025), any level ≥ 3 →
level 2's bounds) and `ok = 1` exactly when `min_bps ≤ price_bps ≤ max_bps`;
in particular (10000, 0) is ok with bounds [9800, 10200] and (10300, 0) is not.
-/
theorem lane_pretrade_spec (price_bps emergency_level : Int) :
    (emergency_level = 0 →
      (get_lane_pretrade_data price_bps emergency_level).min_bps = 9800 ∧
      (get_lane_pretrade_data price_bps emergency_level).max_bps = 10200) ∧
    (emergency_level = 1 →
      (get_lane_pretrade_data price_bps emergency_level).min_bps = 9900 ∧
      (get_lane_pretrade_data price_bps emergency_level).max_bps = 10100) ∧
    (emergency_level = 2 →
      (get_lane_pretrade_data price_bps emergency_level).min_bps = 9975 ∧
      (get_lane_pretrade_data price_bps emergency_level).max_bps = 10025) ∧
    (3 ≤ emergency_level →
      (get_lane_pretrade_data price_bps emergency_level).min_bps = 9975 ∧
      (get_lane_pretrade_data price_bps emergency_level).max_bps = 10025) ∧
    ((get_lane_pretrade_data price_bps emergency_level).ok = 1 ↔
      (get_lane_pretrade_data price_bps emergency_level).min_bps ≤ price_bps ∧
      price_bps ≤ (get_lane_pretrade_data price_bps emergency_level).max_bps) ∧
    (get_lane_pretrade_data 10000 0).ok = 1 ∧
    (get_lane_pretrade_data 10000 0).min_bps = 9800 ∧
    (get_lane_pretrade_data 10000 0).max_bps = 10200 ∧
    (get_lane_pretrade_data 10300 0).ok = 0 := by
  refine ⟨?_, ?_, ?_, ?_, ?_, by decide, by decide, by decide, by decide⟩
  · rintro rfl
    exact ⟨rfl, rfl⟩
  · rintro rfl
    exact ⟨rfl, rfl⟩
  · rintro rfl
    exact ⟨rfl, rfl⟩
  · intro h
    have e0 : (emergency_level == (0 : Int)) = false := beq_eq_false_iff_ne.mpr (by omega)
    have e1 : (emergency_level == (1 : Int)) = false := beq_eq_false_iff_ne.mpr (by omega)
    have e2 : (emergency_level == (2 : Int)) = false := beq_eq_false_iff_ne.mpr (by omega)
    simp [get_lane_pretrade_data, laneBoundsTable, List.lookup, e0, e1, e2]
  · simp only [get_lane_pretrade_data]
    split
    · rename_i hcond
      simpa using hcond
    · rename_i hcond
      simpa using hcond

/-- Witness for C8 at level 3 (fallback branch). -/
theorem lane_pretrade_spec_witness :
    (get_lane_pretrade_data 10000 3).min_bps = 9975 ∧
    (get_lane_pretrade_data 10000 3).max_bps = 10025 :=
  (lane_pretrade_spec 10000 3).2.2.2.1 (by norm_num)

/--
C10: for every emergency level outside the table `{0, 1, 2}` — including
negative levels — the lookup falls back to level 2's bounds (9975, 10025)
and the function is total, always returning `ok ∈ {0, 1}`.
-/
theorem lane_pretrade_fallback_total (price_bps emergency_level : Int)
    (h0 : emergency_level ≠ 0) (h1 : emergency_level ≠ 1) (h2 : emergency_level ≠ 2) :
    (get_lane_pretrade_data price_bps emergency_level).min_bps = 9975 ∧
    (get_lane_pretrade_data price_bps emergency_level).max_bps = 10025 ∧
    ((get_lane_pretrade_data price_bps emergency_level).ok = 0 ∨
      (get_lane_pretrade_data price_bps emergency_level).ok = 1) := by
  have e0 : (emergency_level == (0 : Int)) = false := beq_eq_false_iff_ne.mpr h0
  have e1 : (emergency_level == (1 : Int)) = false := beq_eq_false_iff_ne.mpr h1
  have e2 : (emergency_level == (2 : Int)) = false := beq_eq_false_iff_ne.mpr h2
  refine ⟨?_, ?_, ?_⟩ <;>
    simp only [get_lane_pretrade_data, laneBoundsTable, List.lookup, e0, e1, e2]
  split <;> simp

/-- Witness for C10 at the negative level -1. -/
theorem lane_pretrade_fallback_total_witness :
    (get_lane_pretrade_data 10000 (-1)).min_bps = 9975 ∧
    (get_lane_pretrade_data 10000 (-1)).max_bps = 10025 :=
  ⟨(lane_pretrade_fallback_total 10000 (-1) (by norm_num) (by norm_num) (by norm_num)).1,
   (lane_pretrade_fallback_total 10000 (-1) (by norm_num) (by norm_num) (by norm_num)).2.1⟩

/--
C9: `get_nav_sanity_data`: a missing `prev_nav_ray` is assumed to be 10^27
(1.0 in ray units) with `assumed_prev` marked; `max_jump_bps` defaults to
500; when emergency mode is on or the previous NAV is zero the check always
passes; otherwise `ok = 1` exactly when `lo ≤ proposed ≤ hi` with
`hi = prev * (10000 + maxJump) // 10000` and `lo = prev * (10000 - maxJump)
// 10000` in exact integer floor division.
-/
theorem nav_sanity_spec (proposed_nav_ray : Int) (max_jump_bps : Option Int)
    (emergency_enabled : Int) (prev_nav_ray : Option Int) :
    (get_nav_sanity_data proposed_nav_ray max_jump_bps emergency_enabled
      prev_nav_ray).max_jump_bps = max_jump_bps.getD 500 ∧
    (prev_nav_ray = none →
      (get_nav_sanity_data proposed_nav_ray max_jump_bps emergency_enabled
        prev_nav_ray).prev_nav_ray = 1000000000000000000000000000 ∧
      (get_nav_sanity_data proposed_nav_ray max_jump_bps emergency_enabled
        prev_nav_ray).assumed_prev = 1) ∧
    (emergency_enabled ≠ 0 →
      (get_nav_sanity_data proposed_nav_ray max_jump_bps emergency_enabled
        prev_nav_ray).ok = 1) ∧
    ((get_nav_sanity_data proposed_nav_ray max_jump_bps emergency_enabled
        prev_nav_ray).prev_nav_ray = 0 →
      (get_nav_sanity_data proposed_nav_ray max_jump_bps emergency_enabled
        prev_nav_ray).ok = 1) ∧
    (emergency_enabled = 0 →
      (get_nav_sanity_data proposed_nav_ray max_jump_bps emergency_enabled
          prev_nav_ray).prev_nav_ray ≠ 0 →
      ((get_nav_sanity_data proposed_nav_ray max_jump_bps emergency_enabled
          prev_nav_ray).ok = 1 ↔
        Int.fdiv ((get_nav_sanity_data proposed_nav_ray max_jump_bps emergency_enabled
            prev_nav_ray).prev_nav_ray * (10000 - max_jump_bps.getD 500)) 10000
          ≤ proposed_nav_ray ∧
        proposed_nav_ray ≤
          Int.fdiv ((get_nav_sanity_data proposed_nav_ray max_jump_bps emergency_enabled
            prev_nav_ray).prev_nav_ray * (10000 + max_jump_bps.getD 500)) 10000)) := by
  cases prev_nav_ray with
  | none =>
    refine ⟨rfl, fun _ => ⟨rfl, rfl⟩, ?_, ?_, ?_⟩
    · intro he
      simp only [get_nav_sanity_data]
      rw [if_neg (fun hc => he hc.2)]
    · intro h
      exact absurd h (by norm_num [get_nav_sanity_data])
    · intro he _
      simp only [get_nav_sanity_data]
      rw [if_pos ⟨by norm_num, he⟩]
      split
      · rename_i hcond
        simpa using hcond
      · rename_i hcond
        simpa using hcond
  | some p =>
    refine ⟨rfl, by simp, ?_, ?_, ?_⟩
    · intro he
      simp only [get_nav_sanity_data]
      rw [if_neg (fun hc => he hc.2)]
    · intro h
      have hp : p = 0 := h
      simp only [get_nav_sanity_data, hp]
      rw [if_neg (by simp)]
    · intro he hp
      have hp' : p ≠ 0 := hp
      simp only [get_nav_sanity_data]
      rw [if_pos ⟨hp', he⟩]
      split
      · rename_i hcond
        simpa using hcond
      · rename_i hcond
        simpa using hcond

/-- Witness for C9: a 2% NAV move inside the default 5% band passes. -/
theorem nav_sanity_spec_witness :
    (get_nav_sanity_data (102 * 10 ^ 25) none 0
      (some (10 ^ 27))).ok = 1 :=
  ((nav_sanity_spec (102 * 10 ^ 25) none 0 (some (10 ^ 27))).2.2.2.2 rfl
    (by decide)).mpr (by decide)

/-- Helper: two key-sorted association lists that are permutations of one
another and have no duplicate keys are equal (key order is antisymmetric on
distinct keys). -/
theorem eq_of_sorted_of_nodupkeys :
    ∀ l1 l2 : List (String × JVal), l1.Perm l2 → l1.Sorted keyLe →
      l2.Sorted keyLe → (l1.map Prod.fst).Nodup → l1 = l2 := by
  intro l1
  induction l1 with
  | nil =>
    intro l2 hp _ _ _
    exact hp.nil_eq
  | cons a t ih =>
    intro l2 hp hs1 hs2 hnd
    cases l2 with
    | nil => exact absurd hp.symm (by simp)
    | cons b t2 =>
      have hmem_b : b ∈ a :: t := hp.symm.subset (List.mem_cons_self b t2)
      have hmem_a : a ∈ b :: t2 := hp.subset (List.mem_cons_self a t)
      have hab : a = b := by
        rcases List.mem_cons.mp hmem_b with hb | hb
        · exact hb.symm
        · rcases List.mem_cons.mp hmem_a with ha | ha
          · exact ha
          · exfalso
            have h1 : keyLe a b := (List.sorted_cons.mp hs1).1 b hb
            have h2 : keyLe b a := (List.sorted_cons.mp hs2).1 a ha
            have hk : a.1 = b.1 := le_antisymm h1 h2
            have : a.1 ∈ t.map Prod.fst := by
              rw [hk]
              exact List.mem_map_of_mem Prod.fst hb
            exact (List.nodup_cons.mp hnd).1 this
      subst hab
      have hp' : t.Perm t2 := hp.cons_inv
      have := ih t2 hp' (List.sorted_cons.mp hs1).2 (List.sorted_cons.mp hs2).2
        (List.nodup_cons.mp hnd).2
      rw [this]

/--
C3: `canonical_features_hash` is independent of key insertion order: for two
feature mappings holding exactly the same key/value pairs (a permutation,
with no duplicate keys), the sorted-key compact serialization and hence the
Keccak-256 hash coincide — for every hash function.
-/
theorem canonical_features_hash_order_independent (keccak : List Nat → List Nat)
    (m1 m2 : List (String × JVal)) (hperm : m1.Perm m2)
    (hnd : (m1.map Prod.fst).Nodup) :
    canonical_features_hash keccak m1 = canonical_features_hash keccak m2 := by
  unfold canonical_features_hash
  have hsorteq : sortByKey m1 = sortByKey m2 := by
    have hp : (sortByKey m1).Perm (sortByKey m2) :=
      (List.perm_insertionSort keyLe m1).trans
        (hperm.trans (List.perm_insertionSort keyLe m2).symm)
    have hnd1 : ((sortByKey m1).map Prod.fst).Nodup :=
      (((List.perm_insertionSort keyLe m1).map Prod.fst).nodup_iff).mpr hnd
    exact eq_of_sorted_of_nodupkeys (sortByKey m1) (sortByKey m2) hp
      (List.sorted_insertionSort keyLe m1) (List.sorted_insertionSort keyLe m2) hnd1
  rw [hsorteq]

/-- Witness for C3: the spec's `{a:1,b:2}` versus `{b:2,a:1}` example. -/
theorem canonical_features_hash_order_independent_witness :
    canonical_features_hash trivialKeccak [("a", JVal.jint 1), ("b", JVal.jint 2)] =
      canonical_features_hash trivialKeccak [("b", JVal.jint 2), ("a", JVal.jint 1)] :=
  canonical_features_hash_order_independent trivialKeccak
    [("a", JVal.jint 1), ("b", JVal.jint 2)] [("b", JVal.jint 2), ("a", JVal.jint 1)]
    (by decide) (by decide)

/--
C6: `canonical_json` sorts keys, serializes compactly with `,`/`:`
separators, and replaces every floating-point value by its integer part
truncated toward zero — `2.7` becomes `2` (not the rounded `3`) and `-2.7`
becomes `-2` (toward zero, not floor) — while integer, string, boolean and
null values pass through unchanged; e.g. `{b: 2.7, a: 1}` canonicalizes to
the UTF-8 bytes of `{"a":1,"b":2}`.
-/
theorem canonical_json_spec :
    (∀ obj : List (String × JVal), canonical_json obj =
      utf8Bytes (serializeJsonObj (sortByKey
        (obj.map fun kv => (kv.1, canonicalCoerce kv.2))))) ∧
    (∀ q : ℚ, canonicalCoerce (JVal.jfloat q) = JVal.jint (pytrunc q)) ∧
    (∀ i : ℤ, canonicalCoerce (JVal.jint i) = JVal.jint i) ∧
    (∀ s : String, canonicalCoerce (JVal.jstr s) = JVal.jstr s) ∧
    (∀ b : Bool, canonicalCoerce (JVal.jbool b) = JVal.jbool b) ∧
    canonicalCoerce JVal.jnull = JVal.jnull ∧
    pytrunc (27/10) = 2 ∧
    pytrunc (-27/10) = -2 ∧
    canonical_json [("b", JVal.jfloat (27/10)), ("a", JVal.jint 1)] =
      utf8Bytes "\x7b\"a\":1,\"b\":2\x7d" := by
  have h27 : pytrunc (27/10) = 2 := by
    unfold pytrunc
    rw [if_pos (by norm_num)]
    rw [Int.floor_eq_iff]
    norm_num
  have h27n : pytrunc (-27/10) = -2 := by
    unfold pytrunc
    rw [if_neg (by norm_num)]
    rw [Int.ceil_eq_iff]
    norm_num
  refine ⟨fun _ => rfl, fun _ => rfl, fun _ => rfl, fun _ => rfl, fun _ => rfl, rfl,
    h27, h27n, ?_⟩
  have hmap : ([("b", JVal.jfloat (27/10)), ("a", JVal.jint 1)].map
      fun kv => (kv.1, canonicalCoerce kv.2)) =
      [("b", JVal.jint 2), ("a", JVal.jint 1)] := by
    simp only [List.map, canonicalCoerce, h27]
  have hba : ¬ keyLe ("b", JVal.jint 2) ("a", JVal.jint 1) := by
    simp only [keyLe, String.le_iff_toList_le]
    decide
  have hsort : sortByKey [("b", JVal.jint 2), ("a", JVal.jint 1)] =
      [("a", JVal.jint 1), ("b", JVal.jint 2)] := by
    simp [sortByKey, List.insertionSort, List.orderedInsert, hba]
  unfold canonical_json
  rw [hmap, hsort]
  decide

/--
C2: ECDSA sign/recover round-trip.  For every digest `z` and private key `d`,
signing produces the recoverable signature `(r, s, v) = (xof (k • g),
k⁻¹(z + r d), parity (k • g))` — applied directly to `z`, with no
message-prefixing transform — and `recover` returns the checksummed address
of `d`'s public key, provided the nonce and `r` are nonzero (the library
regenerates the nonce otherwise) and the recovery id reconstructs the nonce
point (the defining property of the 65th byte).  Stated over the scalar
field `ZMod n` (n prime) and an abstract model of the secp256k1 curve group:
a `ZMod n`-module `G` with generator `g`, x-coordinate map `xof`, parity map
`par`, point recovery `recoverPoint`, and address derivation `toAddr`.
-/
theorem sign_recover_roundtrip {n : ℕ} [Fact (Nat.Prime n)] {G : Type}
    [AddCommGroup G] [Module (ZMod n) G] (g : G) (xof : G → ZMod n)
    (par : G → Bool) (recoverPoint : ZMod n → Bool → G) (toAddr : G → String)
    (z d k : ZMod n) (hk : k ≠ 0) (hr : xof (k • g) ≠ 0)
    (hrp : recoverPoint (xof (k • g)) (par (k • g)) = k • g) :
    recoverAddress toAddr g recoverPoint z (sign_digest g xof par z d k) =
      addressOf toAddr g d := by
  unfold recoverAddress recoverPub sign_digest addressOf ecPubkey
  dsimp only
  rw [hrp, smul_smul, ← sub_smul]
  have hsc : (xof (k • g))⁻¹ * (k⁻¹ * (z + xof (k • g) * d)) * k
      - (xof (k • g))⁻¹ * z = d := by
    field_simp
    ring
  rw [hsc]

/-- Witness for C2 in the concrete prime-order module `ZMod 5`. -/
theorem sign_recover_roundtrip_witness :
    @recoverAddress 5 ⟨by norm_num⟩ (ZMod 5) _ _ (fun p => toString p.val) 1
        (fun r _ => r) 1
        (@sign_digest 5 ⟨by norm_num⟩ (ZMod 5) _ _ 1 (fun p => p) (fun _ => true) 1 2 3) =
      @addressOf 5 (ZMod 5) _ _ (fun p => toString p.val) 1 2 :=
  @sign_recover_roundtrip 5 ⟨by norm_num⟩ (ZMod 5) _ _ 1 (fun p => p) (fun _ => true)
    (fun r _ => r) (fun p => toString p.val) 1 2 3 (by decide) (by decide) (by decide)

/-- Helper: `round_half_up` at a rational whose half-up shift sits in `[n, n+1)`. -/
theorem round_half_up_eq (q : ℚ) (n : ℤ) (h0 : 0 ≤ q + 1/2)
    (h1 : (n : ℚ) ≤ q + 1/2) (h2 : q + 1/2 < n + 1) : round_half_up q = n := by
  unfold round_half_up pytrunc
  rw [if_pos h0, Int.floor_eq_iff]
  exact ⟨h1, h2⟩

/-- Helper: `round_half_upR` at a real whose half-up shift sits in `[n, n+1)`. -/
theorem round_half_upR_eq (x : ℝ) (n : ℤ) (h0 : 0 ≤ x + 1/2)
    (h1 : (n : ℝ) ≤ x + 1/2) (h2 : x + 1/2 < n + 1) : round_half_upR x = n := by
  unfold round_half_upR pytruncR
  rw [if_pos h0, Int.floor_eq_iff]
  exact ⟨h1, h2⟩

/-- Helper: `round_half_upR` is at most `n ≥ 0` when the half-up shift is below `n + 1`. -/
theorem round_half_upR_le (x : ℝ) (n : ℤ) (hn : 0 ≤ n) (h2 : x + 1/2 < n + 1) :
    round_half_upR x ≤ n := by
  unfold round_half_upR pytruncR
  split
  · have hlt : ⌊x + 1/2⌋ < n + 1 := Int.floor_lt.mpr (by push_cast; linarith)
    omega
  · rename_i h
    have hn' : (0 : ℝ) ≤ (n : ℝ) := by exact_mod_cast hn
    exact Int.ceil_le.mpr (by linarith [not_le.mp h])

/-- Helper: clamping fixes values already inside the band. -/
theorem clampZ_eq_self (v lo hi : ℤ) (h1 : lo ≤ v) (h2 : v ≤ hi) :
    clampZ v lo hi = v := by
  unfold clampZ
  omega

/-- Helper: clamping pins values at or below the floor to the floor. -/
theorem clampZ_eq_lo (v lo hi : ℤ) (h1 : v ≤ lo) (h2 : lo ≤ hi) :
    clampZ v lo hi = lo := by
  unfold clampZ
  omega

/-- Helper: clamping pins values at or above the cap to the cap. -/
theorem clampZ_eq_hi (v lo hi : ℤ) (h1 : hi ≤ v) (h2 : lo ≤ hi) :
    clampZ v lo hi = hi := by
  unfold clampZ
  omega

/-- Helper: the fair-spread component of `price_cds`, with casts pushed to `ℝ`. -/
theorem price_cds_fairSpreadBps (keccak : List Nat → List Nat) (override : Option Int)
    (seed obligor_id : String) (tenor_days : Int) (features : String → Option ℚ)
    (pd_bps lgd_bps : ℤ) (as_of : Int) :
    (price_cds keccak override seed obligor_id tenor_days features
        pd_bps lgd_bps as_of).fairSpreadBps =
      clampZ (round_half_upR (((pd_bps * lgd_bps : ℤ) : ℝ) / 10000
        + (5 + 2/100 * ((tenor_days : ℤ) : ℝ)
          + ((jitter_bps keccak override seed obligor_id tenor_days as_of : ℤ) : ℝ))
        + 3/5 * Real.sqrt ((max pd_bps 1 : ℤ) : ℝ))) 25 3000 := by
  have hdef : (price_cds keccak override seed obligor_id tenor_days features
        pd_bps lgd_bps as_of).fairSpreadBps =
      clampZ (round_half_upR (((((pd_bps * lgd_bps : ℤ) : ℚ) / 10000 : ℚ) : ℝ)
        + (((5 + 2/100 * (tenor_days : ℚ)
          + ((jitter_bps keccak override seed obligor_id tenor_days as_of : ℤ) : ℚ) : ℚ)) : ℝ)
        + 3/5 * Real.sqrt ((max pd_bps 1 : ℤ) : ℝ))) 25 3000 := rfl
  rw [hdef]
  congr 2
  push_cast
  ring

/-- Helper: the correlation component of `price_cds`. -/
theorem price_cds_correlationBps (keccak : List Nat → List Nat) (override : Option Int)
    (seed obligor_id : String) (tenor_days : Int) (features : String → Option ℚ)
    (pd_bps lgd_bps : ℤ) (as_of : Int) :
    (price_cds keccak override seed obligor_id tenor_days features
        pd_bps lgd_bps as_of).correlationBps =
      clampZ (round_half_up ((15 + 5/2 * fget features "volatility"
        + 3/2 * fget features "countryRisk") * 100)) 1000 9000 := rfl

/-- Helper: lower bound for `Real.sqrt 119`. -/
theorem sqrt119_lo : (109/10 : ℝ) ≤ Real.sqrt 119 :=
  (Real.le_sqrt (by norm_num) (by norm_num)).mpr (by norm_num)

/-- Helper: upper bound for `Real.sqrt 119`. -/
theorem sqrt119_hi : Real.sqrt 119 ≤ 11 :=
  (Real.sqrt_le_left (by norm_num)).mpr (by norm_num)

/-- Helper: upper bound for `Real.sqrt 5`. -/
theorem sqrt5_hi : Real.sqrt 5 ≤ 56/25 :=
  (Real.sqrt_le_left (by norm_num)).mpr (by norm_num)

/-- Helper: lower bound for `Real.sqrt 5`. -/
theorem sqrt5_lo : (11/5 : ℝ) ≤ Real.sqrt 5 :=
  (Real.le_sqrt (by norm_num) (by norm_num)).mpr (by norm_num)

/--
C1: the golden vector.  For obligor "ACME-LLC", tenor 365 days, as-of
1726000000, the spec's feature values and jitter override 0: `score_risk`
returns pdBps 119, lgdBps 4501 and confidence 0.537 (= 0.50 + 0.05·0.8 −
0.03·0.1); `price_cds` returns fairSpreadBps 72 and correlationBps 1605;
and `get_risk_score_bps 119 4501 = 54` — for every hash function (the
override bypasses hashing).
-/
theorem golden_vector (keccak : List Nat → List Nat) :
    score_risk goldenFeatures "ACME-LLC" 365 1726000000 =
      ⟨119, 4501, 537/1000⟩ ∧
    (price_cds keccak (some 0) "42" "ACME-LLC" 365 goldenFeatures
      119 4501 1726000000).fairSpreadBps = 72 ∧
    (price_cds keccak (some 0) "42" "ACME-LLC" 365 goldenFeatures
      119 4501 1726000000).correlationBps = 1605 ∧
    get_risk_score_bps 119 4501 = 54 := by
  refine ⟨?_, ?_, ?_, ?_⟩
  · have h1 : fget goldenFeatures "size" = 12/10 := rfl
    have h2 : fget goldenFeatures "leverage" = 1/2 := rfl
    have h3 : fget goldenFeatures "volatility" = 3/10 := rfl
    have h4 : fget goldenFeatures "fxExposure" = 1/10 := rfl
    have h5 : fget goldenFeatures "countryRisk" = 1/5 := rfl
    have h6 : fget goldenFeatures "industryStress" = 2/5 := rfl
    have h7 : fget goldenFeatures "collateralQuality" = 7/10 := rfl
    have h8 : fget goldenFeatures "dataQuality" = 4/5 := rfl
    have h9 : fget goldenFeatures "modelShift" = 1/10 := rfl
    unfold score_risk
    rw [h1, h2, h3, h4, h5, h6, h7, h8, h9]
    dsimp only
    have hpd : round_half_up (50 * (12/10) + 80 * (1/2) + 40 * (3/10)
        + 30 * (1/10) + 20 * (1/5)) = 119 :=
      round_half_up_eq _ 119 (by norm_num) (by norm_num) (by norm_num)
    have hlgd : round_half_up (4500 + 10 * (2/5) - 5 * (7/10)) = 4501 :=
      round_half_up_eq _ 4501 (by norm_num) (by norm_num) (by norm_num)
    rw [hpd, hlgd, clampZ_eq_self 119 5 3000 (by norm_num) (by norm_num),
      clampZ_eq_self 4501 2000 9000 (by norm_num) (by norm_num)]
    have hconf : clampQ (1/2 + 5/100 * (4/5) - 3/100 * (1/10)) (30/100) (95/100)
        = 537/1000 := by
      unfold clampQ
      rw [show (1/2 + 5/100 * (4/5) - 3/100 * (1/10) : ℚ) = 537/1000 by norm_num]
      rw [min_eq_right (by norm_num), max_eq_right (by norm_num)]
    rw [hconf]
  · rw [price_cds_fairSpreadBps]
    rw [show jitter_bps keccak (some 0) "42" "ACME-LLC" 365 1726000000 = 0 from rfl]
    rw [show (max (119 : ℤ) 1) = 119 by norm_num]
    have hrnd : round_half_upR (((119 * 4501 : ℤ) : ℝ) / 10000
        + (5 + 2/100 * (((365 : Int) : ℤ) : ℝ) + ((0 : ℤ) : ℝ))
        + 3/5 * Real.sqrt ((119 : ℤ) : ℝ)) = 72 := by
      have h119 : ((119 : ℤ) : ℝ) = 119 := by norm_num
      rw [h119]
      refine round_half_upR_eq _ 72 ?_ ?_ ?_
      · have := Real.sqrt_nonneg (119 : ℝ)
        push_cast
        linarith
      · have := sqrt119_lo
        push_cast
        linarith
      · have := sqrt119_hi
        push_cast
        linarith
    rw [hrnd, clampZ_eq_self 72 25 3000 (by norm_num) (by norm_num)]
  · rw [price_cds_correlationBps]
    rw [show fget goldenFeatures "volatility" = 3/10 from rfl,
      show fget goldenFeatures "countryRisk" = 1/5 from rfl]
    have hrnd : round_half_up ((15 + 5/2 * (3/10) + 3/2 * (1/5)) * 100) = 1605 :=
      round_half_up_eq _ 1605 (by norm_num) (by norm_num) (by norm_num)
    rw [hrnd, clampZ_eq_self 1605 1000 9000 (by norm_num) (by norm_num)]
  · unfold get_risk_score_bps
    exact round_half_up_eq _ 54 (by norm_num) (by norm_num) (by norm_num)

/--
Counterexample to C5 as stated: with all-zero features the fair spread is
*not* 25 for every tenor — at tenor 10000 days (jitter override 0) the
liquidity term `5 + 0.02·10000 = 205` dominates and `price_cds` returns
fairSpreadBps 209, not 25.
-/
theorem clamp_boundaries_counterexample :
    (price_cds trivialKeccak (some 0) "42" "X" 10000 zeroFeatures 5 4500
      1726000000).fairSpreadBps ≠ 25 := by
  rw [price_cds_fairSpreadBps]
  rw [show jitter_bps trivialKeccak (some 0) "42" "X" 10000 1726000000 = 0 from rfl]
  rw [show (max (5 : ℤ) 1) = 5 by norm_num]
  have hrnd : round_half_upR (((5 * 4500 : ℤ) : ℝ) / 10000
      + (5 + 2/100 * (((10000 : Int) : ℤ) : ℝ) + ((0 : ℤ) : ℝ))
      + 3/5 * Real.sqrt ((5 : ℤ) : ℝ)) = 209 := by
    rw [show ((5 : ℤ) : ℝ) = 5 by norm_num]
    refine round_half_upR_eq _ 209 ?_ ?_ ?_
    · have := Real.sqrt_nonneg (5 : ℝ)
      push_cast
      linarith
    · have := sqrt5_lo
      push_cast
      linarith
    · have := sqrt5_hi
      push_cast
      linarith
  rw [hrnd, clampZ_eq_self 209 25 3000 (by norm_num) (by norm_num)]
  norm_num

/--
C5 (amended): with all-zero features `score_risk` returns pdBps 5, lgdBps
4500 and confidence 0.50 for every obligor, tenor and as-of; `price_cds`
(with pd 5, lgd 4500) returns correlationBps 1500 always, and fairSpreadBps
25 provided the liquidity contribution is small enough —
`0.02·tenorDays + jitter ≤ 16.9` (e.g. any tenor ≤ 595 days with jitter in
[-5, 5]); for larger tenors the spread exceeds 25 (see the counterexample).
With extreme-high features (all 1000) the outputs are pinned at their maxima
pdBps 3000, lgdBps 9000, correlationBps 9000.
-/
theorem clamp_boundaries_amended (keccak : List Nat → List Nat)
    (override : Option Int) (seed obligor_id : String) (tenor_days as_of : Int) :
    score_risk zeroFeatures obligor_id tenor_days as_of = ⟨5, 4500, 1/2⟩ ∧
    (2/100 * ((tenor_days : ℤ) : ℚ)
        + ((jitter_bps keccak override seed obligor_id tenor_days as_of : ℤ) : ℚ)
        ≤ 169/10 →
      (price_cds keccak override seed obligor_id tenor_days zeroFeatures
        5 4500 as_of).fairSpreadBps = 25) ∧
    (price_cds keccak override seed obligor_id tenor_days zeroFeatures
      5 4500 as_of).correlationBps = 1500 ∧
    (score_risk extremeFeatures obligor_id tenor_days as_of).pdBps = 3000 ∧
    (score_risk extremeFeatures obligor_id tenor_days as_of).lgdBps = 9000 ∧
    (price_cds keccak override seed obligor_id tenor_days extremeFeatures
      3000 9000 as_of).correlationBps = 9000 := by
  refine ⟨?_, ?_, ?_, ?_, ?_, ?_⟩
  · unfold score_risk
    rw [show fget zeroFeatures "size" = 0 from rfl,
      show fget zeroFeatures "leverage" = 0 from rfl,
      show fget zeroFeatures "volatility" = 0 from rfl,
      show fget zeroFeatures "fxExposure" = 0 from rfl,
      show fget zeroFeatures "countryRisk" = 0 from rfl,
      show fget zeroFeatures "industryStress" = 0 from rfl,
      show fget zeroFeatures "collateralQuality" = 0 from rfl,
      show fget zeroFeatures "dataQuality" = 0 from rfl,
      show fget zeroFeatures "modelShift" = 0 from rfl]
    dsimp only
    rw [show (50 * (0:ℚ) + 80 * 0 + 40 * 0 + 30 * 0 + 20 * 0) = 0 by norm_num,
      show (4500 + 10 * (0:ℚ) - 5 * 0) = 4500 by norm_num]
    rw [round_half_up_eq 0 0 (by norm_num) (by norm_num) (by norm_num),
      round_half_up_eq 4500 4500 (by norm_num) (by norm_num) (by norm_num)]
    rw [clampZ_eq_lo 0 5 3000 (by norm_num) (by norm_num),
      clampZ_eq_self 4500 2000 9000 (by norm_num) (by norm_num)]
    have hconf : clampQ (1/2 + 5/100 * 0 - 3/100 * 0) (30/100) (95/100) = 1/2 := by
      unfold clampQ
      rw [show (1/2 + 5/100 * (0:ℚ) - 3/100 * 0) = 1/2 by norm_num]
      rw [min_eq_right (by norm_num), max_eq_right (by norm_num)]
    rw [hconf]
  · intro h
    rw [price_cds_fairSpreadBps]
    rw [show (max (5 : ℤ) 1) = 5 by norm_num]
    have hR : (((2/100 * ((tenor_days : ℤ) : ℚ)
        + ((jitter_bps keccak override seed obligor_id tenor_days as_of : ℤ) : ℚ)) : ℚ) : ℝ)
        ≤ ((169/10 : ℚ) : ℝ) := Rat.cast_le.mpr h
    have hle : round_half_upR (((5 * 4500 : ℤ) : ℝ) / 10000
        + (5 + 2/100 * ((tenor_days : ℤ) : ℝ)
          + ((jitter_bps keccak override seed obligor_id tenor_days as_of : ℤ) : ℝ))
        + 3/5 * Real.sqrt ((5 : ℤ) : ℝ)) ≤ 25 := by
      refine round_half_upR_le _ 25 (by norm_num) ?_
      rw [show ((5 : ℤ) : ℝ) = 5 by norm_num]
      have h5 := sqrt5_hi
      push_cast
      push_cast at hR
      linarith
    exact clampZ_eq_lo _ 25 3000 hle (by norm_num)
  · rw [price_cds_correlationBps]
    rw [show fget zeroFeatures "volatility" = 0 from rfl,
      show fget zeroFeatures "countryRisk" = 0 from rfl]
    rw [show ((15 + 5/2 * (0:ℚ) + 3/2 * 0) * 100) = 1500 by norm_num]
    rw [round_half_up_eq 1500 1500 (by norm_num) (by norm_num) (by norm_num),
      clampZ_eq_self 1500 1000 9000 (by norm_num) (by norm_num)]
  · unfold score_risk
    rw [show fget extremeFeatures "size" = 1000 from rfl,
      show fget extremeFeatures "leverage" = 1000 from rfl,
      show fget extremeFeatures "volatility" = 1000 from rfl,
      show fget extremeFeatures "fxExposure" = 1000 from rfl,
      show fget extremeFeatures "countryRisk" = 1000 from rfl]
    dsimp only
    rw [show (50 * (1000:ℚ) + 80 * 1000 + 40 * 1000 + 30 * 1000 + 20 * 1000)
        = 220000 by norm_num]
    rw [round_half_up_eq 220000 220000 (by norm_num) (by norm_num) (by norm_num)]
    rw [clampZ_eq_hi 220000 5 3000 (by norm_num) (by norm_num)]
  · unfold score_risk
    rw [show fget extremeFeatures "industryStress" = 1000 from rfl,
      show fget extremeFeatures "collateralQuality" = 1000 from rfl]
    dsimp only
    rw [show (4500 + 10 * (1000:ℚ) - 5 * 1000) = 9500 by norm_num]
    rw [round_half_up_eq 9500 9500 (by norm_num) (by norm_num) (by norm_num)]
    rw [clampZ_eq_hi 9500 2000 9000 (by norm_num) (by norm_num)]
  · rw [price_cds_correlationBps]
    rw [show fget extremeFeatures "volatility" = 1000 from rfl,
      show fget extremeFeatures "countryRisk" = 1000 from rfl]
    rw [show ((15 + 5/2 * (1000:ℚ) + 3/2 * 1000) * 100) = 401500 by norm_num]
    rw [round_half_up_eq 401500 401500 (by norm_num) (by norm_num) (by norm_num),
      clampZ_eq_hi 401500 1000 9000 (by norm_num) (by norm_num)]

/-- Witness for the amended C5 at tenor 365 with jitter override 0. -/
theorem clamp_boundaries_amended_witness :
    (2/100 * (((365 : Int) : ℤ) : ℚ)
      + ((jitter_bps trivialKeccak (some 0) "42" "ACME-LLC" 365 1726000000 : ℤ) : ℚ)
      ≤ 169/10) ∧
    (price_cds trivialKeccak (some 0) "42" "ACME-LLC" 365 zeroFeatures
      5 4500 1726000000).fairSpreadBps = 25 := by
  have hhyp : 2/100 * (((365 : Int) : ℤ) : ℚ)
      + ((jitter_bps trivialKeccak (some 0) "42" "ACME-LLC" 365 1726000000 : ℤ) : ℚ)
      ≤ 169/10 := by
    rw [show jitter_bps trivialKeccak (some 0) "42" "ACME-LLC" 365 1726000000 = 0
      from rfl]
    norm_num
  exact ⟨hhyp, (clamp_boundaries_amended trivialKeccak (some 0) "42" "ACME-LLC"
    365 1726000000).2.1 hhyp⟩

end Brics
